import Mathlib

/-!
Verification of the broken-monitor-environment detection engine and of the
app-service installation lookup.

The detection engine (spec §4.1) is present in the repository only through its
test suite (tests/sentry/monitors/tasks/test_detect_broken_monitor_envs.py);
the task body itself (sentry/monitors/tasks/detect_broken_monitor_envs.py) is
not among the available source files, so the evaluator below is modelled from
the specification and checked for consistency against the behaviour the tests
pin down.  The installation lookup is embedded directly from
src/sentry/services/hybrid_cloud/app/impl.py.
-/

namespace Sentry

/-- Monitor lifecycle status (spec §3, ObjectStatus in the source). -/
inductive MonitorStatus
  | active
  | disabled
  | pendingDeletion
  | deletionInProgress
  deriving DecidableEq, Repr

/-- Current run status of a monitor-environment (spec §3). -/
inductive MonitorEnvStatus
  | ok
  | error
  | muted
  deriving DecidableEq, Repr

/-- Status of one check-in (spec §3, CheckInStatus in the source). -/
inductive CheckInStatus
  | inProgress
  | ok
  | error
  | missed
  | timeout
  | unknown
  deriving DecidableEq, Repr

/-- A check-in status counts as failing when it is ERROR or TIMEOUT
(spec §4.1 step 4). -/
def CheckInStatus.isFailing : CheckInStatus → Bool
  | .error => true
  | .timeout => true
  | _ => false

/-- A logical scheduled job (spec §3).  Schedule configuration is irrelevant
to the detection engine and is omitted. -/
structure Monitor where
  id : Nat
  organizationId : Nat
  projectId : Nat
  status : MonitorStatus
  deriving DecidableEq, Repr

/-- A (monitor, environment) pair (spec §3). -/
structure MonitorEnvironment where
  id : Nat
  monitorId : Nat
  status : MonitorEnvStatus
  deriving DecidableEq, Repr

/-- One execution report for a monitor-environment (spec §3); timestamps are
seconds since an epoch. -/
structure MonitorCheckIn where
  monitorEnvId : Nat
  status : CheckInStatus
  timestamp : Nat
  deriving DecidableEq, Repr

/-- One continuous failing streak for a monitor-environment (spec §3). -/
structure MonitorIncident where
  id : Nat
  monitorEnvId : Nat
  startingTimestamp : Nat
  resolved : Bool
  deriving DecidableEq, Repr

/-- The detection engine's sole write target (spec §3): one row per incident
marking that brokenness was declared. -/
structure MonitorEnvBrokenDetection where
  monitorIncidentId : Nat
  timestamp : Nat
  deriving DecidableEq, Repr

/-- The persistent data the evaluator reads and writes, together with the
feature-gate state and the current time of the run. -/
structure DataState where
  monitors : List Monitor
  environments : List MonitorEnvironment
  checkins : List MonitorCheckIn
  incidents : List MonitorIncident
  detections : List MonitorEnvBrokenDetection
  enabledOrgs : List Nat
  now : Nat
  deriving Repr

def SECONDS_PER_DAY : Nat := 86400

/-- Minimum elapsed-failure duration before an incident can be declared broken
(spec §4.1 step 2: 12 days). -/
def MIN_DURATION : Nat := 12 * SECONDS_PER_DAY

/-- Number of most recent check-ins that must all be failing
(spec §4.1 step 3: 4). -/
def MIN_CHECKINS : Nat := 4

/-- Modelled from the spec: the Feature Gate interface
`is_enabled(organization_id) -> bool` (spec §6). -/
def featureEnabledFor (s : DataState) (orgId : Nat) : Bool :=
  s.enabledOrgs.contains orgId

/-- Modelled from the spec: the Incident query interface
`open_incident_for(monitor_environment_id) -> Incident | none` (spec §6):
the open (unresolved) incident of a monitor-environment, if any. -/
def open_incident_for (s : DataState) (envId : Nat) : Option MonitorIncident :=
  s.incidents.find? (fun inc => inc.monitorEnvId == envId && !inc.resolved)

/-- Insert a check-in into a list that is ordered by timestamp descending,
keeping it ordered. -/
def insertByTimeDesc (c : MonitorCheckIn) :
    List MonitorCheckIn → List MonitorCheckIn
  | [] => [c]
  | d :: rest =>
      if d.timestamp ≤ c.timestamp then c :: d :: rest
      else d :: insertByTimeDesc c rest

/-- Order a list of check-ins by timestamp descending (newest first). -/
def sortByTimeDesc : List MonitorCheckIn → List MonitorCheckIn
  | [] => []
  | c :: rest => insertByTimeDesc c (sortByTimeDesc rest)

/-- Modelled from the spec: the Check-in History query interface
`recent_checkins(monitor_environment_id, limit)` (spec §6): the most recent
`limit` check-ins of a monitor-environment, newest first. -/
def recent_checkins (s : DataState) (envId : Nat) (limit : Nat) :
    List MonitorCheckIn :=
  ((sortByTimeDesc (s.checkins.filter (fun c => c.monitorEnvId == envId))).take
    limit)

/-- Modelled from the spec: the eligibility filter of the evaluator
(spec §4.1): the organization of the environment's monitor has the
broken-monitor-detection capability enabled and the monitor is ACTIVE.
Per the end-to-end test, the "currently failing" condition is witnessed by
the open unresolved incident rather than by a separate status field of the
environment. -/
def envEligible (s : DataState) (env : MonitorEnvironment) : Bool :=
  match s.monitors.find? (fun m => m.id == env.monitorId) with
  | some m => featureEnabledFor s m.organizationId && m.status == MonitorStatus.active
  | none => false

/-- Modelled from the spec: the decision algorithm's duration and
consecutive-failure conditions (spec §4.1 steps 2-4) for an incident of the
monitor-environment `envId`. -/
def brokenConditions (s : DataState) (inc : MonitorIncident) (envId : Nat) : Bool :=
  decide (MIN_DURATION ≤ s.now - inc.startingTimestamp) &&
    (let recent := recent_checkins s envId MIN_CHECKINS
     recent.length == MIN_CHECKINS && recent.all (fun c => c.status.isFailing))

/-- Modelled from the spec: whether a monitor-environment qualifies for a
broken detection, and for which incident (spec §4.1, eligibility filter plus
decision steps 1-4; the idempotency guard of steps 5-6 is separate). -/
def qualifies (s : DataState) (env : MonitorEnvironment) : Option MonitorIncident :=
  if envEligible s env then
    match open_incident_for s env.id with
    | some inc => if brokenConditions s inc env.id then some inc else none
    | none => none
  else none

/-- Modelled from the spec: `has_detection(incident_id) -> bool` (spec §6). -/
def hasDetection (dets : List MonitorEnvBrokenDetection) (incId : Nat) : Bool :=
  dets.any (fun d => d.monitorIncidentId == incId)

/-- Modelled from the spec: processing of one monitor-environment (spec §4.1
steps 5-6): when it qualifies and no detection record references the incident
yet, append one timestamped now; otherwise leave the records unchanged. -/
def processEnv (s : DataState) (dets : List MonitorEnvBrokenDetection)
    (env : MonitorEnvironment) : List MonitorEnvBrokenDetection :=
  match qualifies s env with
  | some inc =>
      if hasDetection dets inc.id then dets
      else dets ++ [⟨inc.id, s.now⟩]
  | none => dets

/-- Modelled from the spec: one run of the Broken-Detection Evaluator
(spec §4.1 `run()`): a batch pass over all monitor-environments, writing
detection records only. -/
def detect_broken_monitor_envs (s : DataState) : DataState :=
  { s with detections := s.environments.foldl (processEnv s) s.detections }

/-- Number of detection records referencing a given incident. -/
def countDetections (dets : List MonitorEnvBrokenDetection) (incId : Nat) : Nat :=
  dets.countP (fun d => d.monitorIncidentId == incId)

/-- Modelled from the spec: per-item error isolation (spec §4.1 error
handling, §7): a run in which processing of the monitor-environments whose
ids are listed in `failingIds` raises a transient storage error; the failure
is caught and that item contributes nothing, the pass continues. -/
def processEnvIsolated (s : DataState) (failingIds : List Nat)
    (dets : List MonitorEnvBrokenDetection) (env : MonitorEnvironment) :
    List MonitorEnvBrokenDetection :=
  if failingIds.contains env.id then dets else processEnv s dets env

/-- Modelled from the spec: a run of the evaluator in which the items in
`failingIds` fail with a caught per-item error (spec §7). -/
def detect_broken_monitor_envs_isolated (s : DataState) (failingIds : List Nat) :
    DataState :=
  { s with
    detections := s.environments.foldl (processEnvIsolated s failingIds) s.detections }

/-- Concrete active monitor used by the closed witnesses below. -/
def exMonitor : Monitor := ⟨1, 10, 100, .active⟩

/-- Concrete disabled monitor (same ids as `exMonitor`). -/
def exMonitorDisabled : Monitor := ⟨1, 10, 100, .disabled⟩

/-- Concrete monitor-environment for `exMonitor`. -/
def exEnv : MonitorEnvironment := ⟨1, 1, .ok⟩

/-- Open incident of `exEnv`, started at the epoch. -/
def exIncident : MonitorIncident := ⟨1, 1, 0, false⟩

/-- Open incident of `exEnv`, started only 10 days before day 14. -/
def exIncidentShort : MonitorIncident := ⟨1, 1, 4 * SECONDS_PER_DAY, false⟩

/-- Four failing check-ins for `exEnv`, on days 10 through 13. -/
def exCheckins : List MonitorCheckIn :=
  [⟨1, .error, 13 * SECONDS_PER_DAY⟩, ⟨1, .error, 12 * SECONDS_PER_DAY⟩,
   ⟨1, .error, 11 * SECONDS_PER_DAY⟩, ⟨1, .error, 10 * SECONDS_PER_DAY⟩]

/-- Only two failing check-ins for `exEnv`. -/
def exCheckinsFew : List MonitorCheckIn :=
  [⟨1, .error, 13 * SECONDS_PER_DAY⟩, ⟨1, .error, 12 * SECONDS_PER_DAY⟩]

/-- Four check-ins for `exEnv` whose most recent one is OK. -/
def exCheckinsRecovered : List MonitorCheckIn :=
  [⟨1, .ok, 13 * SECONDS_PER_DAY⟩, ⟨1, .error, 12 * SECONDS_PER_DAY⟩,
   ⟨1, .error, 11 * SECONDS_PER_DAY⟩, ⟨1, .error, 10 * SECONDS_PER_DAY⟩]

/-- Fully qualifying state at day 14: feature enabled for organization 10,
active monitor, open 14-day-old incident, four failing recent check-ins. -/
def exState : DataState :=
  ⟨[exMonitor], [exEnv], exCheckins, [exIncident], [], [10], 14 * SECONDS_PER_DAY⟩

/-- Like `exState` but the incident is only 10 days old. -/
def exStateShort : DataState :=
  ⟨[exMonitor], [exEnv], exCheckins, [exIncidentShort], [], [10],
    14 * SECONDS_PER_DAY⟩

/-- Like `exState` but only two check-ins exist. -/
def exStateFew : DataState :=
  ⟨[exMonitor], [exEnv], exCheckinsFew, [exIncident], [], [10],
    14 * SECONDS_PER_DAY⟩

/-- Like `exState` but the most recent check-in is OK. -/
def exStateRecovered : DataState :=
  ⟨[exMonitor], [exEnv], exCheckinsRecovered, [exIncident], [], [10],
    14 * SECONDS_PER_DAY⟩

/-- Like `exState` but the feature gate is enabled for no organization. -/
def exStateNoFeature : DataState :=
  ⟨[exMonitor], [exEnv], exCheckins, [exIncident], [], [],
    14 * SECONDS_PER_DAY⟩

/-- Like `exState` but the monitor is disabled. -/
def exStateDisabled : DataState :=
  ⟨[exMonitorDisabled], [exEnv], exCheckins, [exIncident], [], [10],
    14 * SECONDS_PER_DAY⟩

end Sentry

namespace AppService

/-- Installation status (SentryAppInstallationStatus in sentry.constants). -/
inductive SentryAppInstallationStatus
  | pending
  | installed
  deriving DecidableEq, Repr

/-- A sentry-app installation row, with the fields the lookup reads. -/
structure SentryAppInstallation where
  id : Nat
  sentryAppId : Nat
  organizationId : Nat
  status : SentryAppInstallationStatus
  deriving DecidableEq, Repr

/-- The RPC-serialized form of an installation. -/
structure RpcSentryAppInstallation where
  id : Nat
  sentryAppId : Nat
  organizationId : Nat
  deriving DecidableEq, Repr

/-- Modelled from the spec: serialize_sentry_app_installation lives outside
the available sources; it is modelled as projecting the stable fields of the
row. -/
def serialize_sentry_app_installation (i : SentryAppInstallation) :
    RpcSentryAppInstallation :=
  ⟨i.id, i.sentryAppId, i.organizationId⟩

/-- DatabaseBackedAppService.get_installation_by_id
(src/sentry/services/hybrid_cloud/app/impl.py lines 71-78): fetch the
installation with the given id and status INSTALLED; a DoesNotExist is caught
and turned into None.  The table is modelled as the list of its rows; the
ORM `.get` over the unique primary key is the first (hence only) match. -/
def get_installation_by_id (installs : List SentryAppInstallation) (iid : Nat) :
    Option RpcSentryAppInstallation :=
  match installs.find?
      (fun i => i.id == iid && i.status == SentryAppInstallationStatus.installed) with
  | some install => some (serialize_sentry_app_installation install)
  | none => none

/-- Concrete installation table used by the closed witness. -/
def exInstalls : List SentryAppInstallation :=
  [⟨1, 7, 10, .installed⟩, ⟨2, 7, 11, .pending⟩]

end AppService

namespace Sentry

/-- Sorting by time keeps the inserted element counted once. -/
theorem length_insertByTimeDesc (c : MonitorCheckIn) (l : List MonitorCheckIn) :
    (insertByTimeDesc c l).length = l.length + 1 := by
  induction l with
  | nil => rfl
  | cons d rest ih =>
      unfold insertByTimeDesc
      by_cases h : d.timestamp ≤ c.timestamp
      · rw [if_pos h]
        rfl
      · rw [if_neg h]
        simp [ih]

/-- Sorting by time descending preserves length. -/
theorem length_sortByTimeDesc (l : List MonitorCheckIn) :
    (sortByTimeDesc l).length = l.length := by
  induction l with
  | nil => rfl
  | cons c rest ih =>
      unfold sortByTimeDesc
      rw [length_insertByTimeDesc, ih]
      rfl

/-- Equation lemma: a non-qualifying monitor-environment leaves the records
unchanged. -/
theorem processEnv_none (s : DataState) (dets : List MonitorEnvBrokenDetection)
    (e : MonitorEnvironment) (hq : qualifies s e = none) :
    processEnv s dets e = dets := by
  unfold processEnv
  rw [hq]

/-- Equation lemma: a qualifying monitor-environment appends one record when
none references the incident yet. -/
theorem processEnv_some (s : DataState) (dets : List MonitorEnvBrokenDetection)
    (e : MonitorEnvironment) (inc : MonitorIncident)
    (hq : qualifies s e = some inc) :
    processEnv s dets e =
      if hasDetection dets inc.id = true then dets
      else dets ++ [⟨inc.id, s.now⟩] := by
  unfold processEnv
  rw [hq]

/-- Appending a record preserves any detection already present. -/
theorem hasDetection_append (dets : List MonitorEnvBrokenDetection)
    (x : MonitorEnvBrokenDetection) (i : Nat) (h : hasDetection dets i = true) :
    hasDetection (dets ++ [x]) i = true := by
  unfold hasDetection at *
  rw [List.any_append, h]
  rfl

/-- A present detection yields a positive count. -/
theorem countDetections_pos (dets : List MonitorEnvBrokenDetection) (i : Nat)
    (h : hasDetection dets i = true) : 1 ≤ countDetections dets i := by
  unfold hasDetection at h
  unfold countDetections
  obtain ⟨d, hd, hp⟩ := List.any_eq_true.mp h
  exact List.countP_pos_iff.mpr ⟨d, hd, hp⟩

/-- An absent detection means a zero count. -/
theorem countDetections_zero (dets : List MonitorEnvBrokenDetection) (i : Nat)
    (h : hasDetection dets i = false) : countDetections dets i = 0 := by
  unfold hasDetection at h
  unfold countDetections
  refine List.countP_eq_zero.mpr ?_
  intro a ha hp
  have : dets.any (fun d => d.monitorIncidentId == i) = true :=
    List.any_eq_true.mpr ⟨a, ha, hp⟩
  rw [h] at this
  cases this

/-- Counting over an appended singleton. -/
theorem countDetections_append (dets : List MonitorEnvBrokenDetection)
    (x : MonitorEnvBrokenDetection) (i : Nat) :
    countDetections (dets ++ [x]) i =
      countDetections dets i + (if x.monitorIncidentId == i then 1 else 0) := by
  unfold countDetections
  rw [List.countP_append]
  congr 1
  simp [List.countP, List.countP.go]

/-- Processing one monitor-environment preserves any detection already
present. -/
theorem processEnv_mono (s : DataState) (dets : List MonitorEnvBrokenDetection)
    (e : MonitorEnvironment) (i : Nat) (h : hasDetection dets i = true) :
    hasDetection (processEnv s dets e) i = true := by
  cases hq : qualifies s e with
  | none =>
      rw [processEnv_none s dets e hq]
      exact h
  | some inc =>
      rw [processEnv_some s dets e inc hq]
      by_cases hd : hasDetection dets inc.id = true
      · rw [if_pos hd]
        exact h
      · rw [if_neg hd]
        exact hasDetection_append dets _ i h

/-- The batch pass preserves any detection already present. -/
theorem foldl_processEnv_mono (s : DataState) (l : List MonitorEnvironment)
    (dets : List MonitorEnvBrokenDetection) (i : Nat)
    (h : hasDetection dets i = true) :
    hasDetection (l.foldl (processEnv s) dets) i = true := by
  induction l generalizing dets with
  | nil => exact h
  | cons e t ih => exact ih _ (processEnv_mono s dets e i h)

/-- After the batch pass, every qualifying monitor-environment's incident is
referenced by some detection record. -/
theorem foldl_processEnv_covers (s : DataState) (l : List MonitorEnvironment)
    (dets : List MonitorEnvBrokenDetection) (env : MonitorEnvironment)
    (inc : MonitorIncident) (henv : env ∈ l) (hq : qualifies s env = some inc) :
    hasDetection (l.foldl (processEnv s) dets) inc.id = true := by
  induction l generalizing dets with
  | nil => cases henv
  | cons e t ih =>
      rw [List.foldl_cons]
      rcases List.mem_cons.mp henv with he | ht
      · subst he
        apply foldl_processEnv_mono
        rw [processEnv_some s dets env inc hq]
        by_cases hd : hasDetection dets inc.id = true
        · rw [if_pos hd]
          exact hd
        · rw [if_neg hd]
          unfold hasDetection
          rw [List.any_append]
          simp
      · exact ih _ ht

/-- When every qualifying incident of the listed environments already has a
detection record, the batch pass is the identity on the record set. -/
theorem foldl_processEnv_fixed (s : DataState) (l : List MonitorEnvironment)
    (dets : List MonitorEnvBrokenDetection)
    (h : ∀ env ∈ l, ∀ inc, qualifies s env = some inc →
      hasDetection dets inc.id = true) :
    l.foldl (processEnv s) dets = dets := by
  induction l with
  | nil => rfl
  | cons e t ih =>
      have he : processEnv s dets e = dets := by
        cases hq : qualifies s e with
        | none => exact processEnv_none s dets e hq
        | some inc =>
            rw [processEnv_some s dets e inc hq,
              if_pos (h e (List.mem_cons_self e t) inc hq)]
      rw [List.foldl_cons, he]
      exact ih fun env hm inc hq => h env (List.mem_cons_of_mem e hm) inc hq

/-- One run appends at most one record per incident: the count after the pass
is bounded by the count before, or by one. -/
theorem foldl_processEnv_le (s : DataState) (l : List MonitorEnvironment)
    (dets : List MonitorEnvBrokenDetection) (i : Nat) :
    countDetections (l.foldl (processEnv s) dets) i ≤
      max 1 (countDetections dets i) := by
  induction l generalizing dets with
  | nil => exact le_max_right 1 _
  | cons e t ih =>
      rw [List.foldl_cons]
      refine le_trans (ih (processEnv s dets e)) (max_le (le_max_left 1 _) ?_)
      cases hq : qualifies s e with
      | none =>
          rw [processEnv_none s dets e hq]
          exact le_max_right 1 _
      | some inc =>
          rw [processEnv_some s dets e inc hq]
          by_cases hd : hasDetection dets inc.id = true
          · rw [if_pos hd]
            exact le_max_right 1 _
          · rw [if_neg hd]
            rw [countDetections_append]
            by_cases hji : inc.id = i
            · subst hji
              have h0 : countDetections dets inc.id = 0 :=
                countDetections_zero dets inc.id (by
                  cases hdd : hasDetection dets inc.id
                  · rfl
                  · exact absurd hdd hd)
              simp [h0]
            · have : ((⟨inc.id, s.now⟩ :
                  MonitorEnvBrokenDetection).monitorIncidentId == i) = false := by
                simp [hji]
              rw [this]
              simp

/-- When no listed environment qualifies with an incident of id `i`, the batch
pass does not change the number of records referencing `i`. -/
theorem foldl_processEnv_count_eq (s : DataState) (l : List MonitorEnvironment)
    (dets : List MonitorEnvBrokenDetection) (i : Nat)
    (h : ∀ env ∈ l, ∀ inc, qualifies s env = some inc → inc.id ≠ i) :
    countDetections (l.foldl (processEnv s) dets) i = countDetections dets i := by
  induction l generalizing dets with
  | nil => rfl
  | cons e t ih =>
      rw [List.foldl_cons,
        ih _ fun env hm inc hq => h env (List.mem_cons_of_mem e hm) inc hq]
      cases hq : qualifies s e with
      | none => rw [processEnv_none s dets e hq]
      | some inc =>
          rw [processEnv_some s dets e inc hq]
          by_cases hd : hasDetection dets inc.id = true
          · rw [if_pos hd]
          · rw [if_neg hd, countDetections_append]
            have hne : ((⟨inc.id, s.now⟩ :
                MonitorEnvBrokenDetection).monitorIncidentId == i) = false := by
              simp
              exact h e (List.mem_cons_self e t) inc hq
            rw [hne]
            simp

/-- The batch pass only appends records. -/
theorem foldl_processEnv_append (s : DataState) (l : List MonitorEnvironment)
    (dets : List MonitorEnvBrokenDetection) :
    ∃ t, l.foldl (processEnv s) dets = dets ++ t := by
  induction l generalizing dets with
  | nil => exact ⟨[], (List.append_nil dets).symm⟩
  | cons e rest ih =>
      have hstep : ∃ u, processEnv s dets e = dets ++ u := by
        cases hq : qualifies s e with
        | none =>
            rw [processEnv_none s dets e hq]
            exact ⟨[], (List.append_nil dets).symm⟩
        | some inc =>
            rw [processEnv_some s dets e inc hq]
            by_cases hd : hasDetection dets inc.id = true
            · rw [if_pos hd]
              exact ⟨[], (List.append_nil dets).symm⟩
            · rw [if_neg hd]
              exact ⟨[⟨inc.id, s.now⟩], rfl⟩
      obtain ⟨u, hu⟩ := hstep
      obtain ⟨t, ht⟩ := ih (processEnv s dets e)
      rw [List.foldl_cons]
      exact ⟨u ++ t, by rw [ht, hu, List.append_assoc]⟩

/-- Unfolding of a qualification: eligibility, the open incident, and the
duration and failure conditions all hold. -/
theorem qualifies_inv (s : DataState) (env : MonitorEnvironment)
    (inc : MonitorIncident) (h : qualifies s env = some inc) :
    envEligible s env = true ∧ open_incident_for s env.id = some inc ∧
      brokenConditions s inc env.id = true := by
  unfold qualifies at h
  split at h
  next he =>
    split at h
    next j ho =>
      split at h
      next hb =>
        injection h with h
        subst h
        exact ⟨by simpa using he, ho, hb⟩
      next => cases h
    next => cases h
  next he => cases h

/-- Unfolding of an open-incident lookup: the incident is stored, belongs to
the environment, and is unresolved. -/
theorem open_incident_for_inv (s : DataState) (envId : Nat)
    (inc : MonitorIncident) (h : open_incident_for s envId = some inc) :
    inc ∈ s.incidents ∧ inc.monitorEnvId = envId ∧ inc.resolved = false := by
  unfold open_incident_for at h
  have hp := List.find?_some h
  simp at hp
  exact ⟨List.mem_of_find?_eq_some h, hp.1, hp.2⟩

/-- Core of the positive claims: a monitor-environment meeting all the
eligibility and brokenness conditions, whose incident is not yet referenced,
ends the run with exactly one detection record referencing its incident. -/
theorem run_creates_one (s : DataState) (env : MonitorEnvironment) (m : Monitor)
    (inc : MonitorIncident)
    (henv : env ∈ s.environments)
    (hm : s.monitors.find? (fun x => x.id == env.monitorId) = some m)
    (hfeat : featureEnabledFor s m.organizationId = true)
    (hact : m.status = MonitorStatus.active)
    (hinc : open_incident_for s env.id = some inc)
    (hage : MIN_DURATION ≤ s.now - inc.startingTimestamp)
    (hlen : (recent_checkins s env.id MIN_CHECKINS).length = MIN_CHECKINS)
    (hfail : ∀ c ∈ recent_checkins s env.id MIN_CHECKINS,
      c.status.isFailing = true)
    (hnone : countDetections s.detections inc.id = 0) :
    countDetections (detect_broken_monitor_envs s).detections inc.id = 1 := by
  have he : envEligible s env = true := by
    unfold envEligible
    rw [hm]
    simp [hfeat, hact]
  have hb : brokenConditions s inc env.id = true := by
    unfold brokenConditions
    simp only [Bool.and_eq_true, decide_eq_true_eq, beq_iff_eq, List.all_eq_true]
    exact ⟨hage, hlen, hfail⟩
  have hq : qualifies s env = some inc := by
    unfold qualifies
    rw [if_pos he, hinc]
    show (if brokenConditions s inc env.id = true then some inc else none) =
      some inc
    rw [if_pos hb]
  have h1 : hasDetection
      (s.environments.foldl (processEnv s) s.detections) inc.id = true :=
    foldl_processEnv_covers s s.environments s.detections env inc henv hq
  have hge : 1 ≤ countDetections
      (s.environments.foldl (processEnv s) s.detections) inc.id :=
    countDetections_pos _ _ h1
  have hle := foldl_processEnv_le s s.environments s.detections inc.id
  rw [hnone] at hle
  simp at hle
  show countDetections
    (s.environments.foldl (processEnv s) s.detections) inc.id = 1
  omega

/-- Core of the negative claims: when no listed environment qualifies with an
incident of id `i`, the run leaves the number of records referencing `i`
unchanged. -/
theorem run_count_eq (s : DataState) (i : Nat)
    (h : ∀ env ∈ s.environments, ∀ inc, qualifies s env = some inc →
      inc.id ≠ i) :
    countDetections (detect_broken_monitor_envs s).detections i =
      countDetections s.detections i :=
  foldl_processEnv_count_eq s s.environments s.detections i h

/-- Running the evaluator a second time over its own output is the
identity. -/
theorem run_idem (s : DataState) :
    detect_broken_monitor_envs (detect_broken_monitor_envs s) =
      detect_broken_monitor_envs s := by
  have h1 : detect_broken_monitor_envs (detect_broken_monitor_envs s) =
      { s with detections := (s.environments.foldl (processEnv s)
          (s.environments.foldl (processEnv s) s.detections)) } := rfl
  rw [h1, foldl_processEnv_fixed s s.environments _ fun env hm inc hq =>
    foldl_processEnv_covers s s.environments s.detections env inc hm hq]
  rfl

/-- A run with caught per-item failures preserves any detection already
present. -/
theorem processEnvIsolated_mono (s : DataState) (failingIds : List Nat)
    (dets : List MonitorEnvBrokenDetection) (e : MonitorEnvironment) (i : Nat)
    (h : hasDetection dets i = true) :
    hasDetection (processEnvIsolated s failingIds dets e) i = true := by
  unfold processEnvIsolated
  by_cases hc : failingIds.contains e.id = true
  · rw [if_pos hc]
    exact h
  · rw [if_neg hc]
    exact processEnv_mono s dets e i h

/-- The batch pass with caught per-item failures preserves any detection
already present. -/
theorem foldl_processEnvIsolated_mono (s : DataState) (failingIds : List Nat)
    (l : List MonitorEnvironment) (dets : List MonitorEnvBrokenDetection)
    (i : Nat) (h : hasDetection dets i = true) :
    hasDetection (l.foldl (processEnvIsolated s failingIds) dets) i = true := by
  induction l generalizing dets with
  | nil => exact h
  | cons e t ih => exact ih _ (processEnvIsolated_mono s failingIds dets e i h)

/-- After a batch pass with caught per-item failures, every qualifying
monitor-environment that did not itself fail has its incident referenced. -/
theorem foldl_processEnvIsolated_covers (s : DataState) (failingIds : List Nat)
    (l : List MonitorEnvironment) (dets : List MonitorEnvBrokenDetection)
    (env : MonitorEnvironment) (inc : MonitorIncident)
    (henv : env ∈ l) (hok : failingIds.contains env.id = false)
    (hq : qualifies s env = some inc) :
    hasDetection (l.foldl (processEnvIsolated s failingIds) dets) inc.id =
      true := by
  induction l generalizing dets with
  | nil => cases henv
  | cons e t ih =>
      rw [List.foldl_cons]
      rcases List.mem_cons.mp henv with he | ht
      · subst he
        apply foldl_processEnvIsolated_mono
        unfold processEnvIsolated
        rw [if_neg (by simpa using hok), processEnv_some s dets env inc hq]
        by_cases hd : hasDetection dets inc.id = true
        · rw [if_pos hd]
          exact hd
        · rw [if_neg hd]
          unfold hasDetection
          rw [List.any_append]
          simp
      · exact ih _ ht

end Sentry

namespace AppService

/-- `find?` returns the unique element satisfying the predicate. -/
theorem find_matching_unique {α : Type} (p : α → Bool) (l : List α) (a : α)
    (hmem : a ∈ l) (hp : p a = true)
    (huniq : ∀ b ∈ l, p b = true → b = a) :
    l.find? p = some a := by
  induction l with
  | nil => cases hmem
  | cons x t ih =>
      by_cases hx : p x = true
      · rw [List.find?_cons_of_pos _ hx, huniq x (List.mem_cons_self x t) hx]
      · rw [List.find?_cons_of_neg _ hx]
        have hma : a ∈ t := by
          rcases List.mem_cons.mp hmem with h | h
          · exact absurd (h ▸ hp) hx
          · exact h
        exact ih hma fun b hb hpb => huniq b (List.mem_cons_of_mem x hb) hpb

end AppService

namespace Sentry

/-- C1: For every monitor-environment whose organization has the
broken-monitor-detection feature enabled, whose monitor is ACTIVE, whose open
incident started at least MIN_DURATION before now, and whose MIN_CHECKINS most
recent check-ins all have a failing status, one run of the evaluator creates
exactly one MonitorEnvBrokenDetection record referencing that incident. -/
theorem C1_run_creates_exactly_one_detection (s : DataState)
    (env : MonitorEnvironment) (m : Monitor) (inc : MonitorIncident)
    (henv : env ∈ s.environments)
    (hm : s.monitors.find? (fun x => x.id == env.monitorId) = some m)
    (hfeat : featureEnabledFor s m.organizationId = true)
    (hact : m.status = MonitorStatus.active)
    (hinc : open_incident_for s env.id = some inc)
    (hage : MIN_DURATION ≤ s.now - inc.startingTimestamp)
    (hlen : (recent_checkins s env.id MIN_CHECKINS).length = MIN_CHECKINS)
    (hfail : ∀ c ∈ recent_checkins s env.id MIN_CHECKINS,
      c.status.isFailing = true)
    (hnone : countDetections s.detections inc.id = 0) :
    countDetections (detect_broken_monitor_envs s).detections inc.id = 1 :=
  run_creates_one s env m inc henv hm hfeat hact hinc hage hlen hfail hnone

/-- Witness for C1 at the concrete fully qualifying state. -/
theorem C1_witness :
    countDetections (detect_broken_monitor_envs exState).detections 1 = 1 :=
  C1_run_creates_exactly_one_detection exState exEnv exMonitor exIncident
    (by decide) (by decide) (by decide) (by decide) (by decide) (by decide)
    (by decide) (by decide) (by decide)

/-- C2: The evaluator is idempotent: running it a second time over the
unchanged data produces the same state, and each incident not previously
referenced is referenced by at most one detection record afterwards. -/
theorem C2_evaluator_idempotent (s : DataState) :
    detect_broken_monitor_envs (detect_broken_monitor_envs s) =
      detect_broken_monitor_envs s ∧
    ∀ i, countDetections s.detections i = 0 →
      countDetections
        (detect_broken_monitor_envs
          (detect_broken_monitor_envs s)).detections i ≤ 1 := by
  refine ⟨run_idem s, fun i h0 => ?_⟩
  rw [run_idem s]
  have hle := foldl_processEnv_le s s.environments s.detections i
  rw [h0] at hle
  simp at hle
  exact hle

/-- Witness for C2 at the concrete fully qualifying state. -/
theorem C2_witness :
    detect_broken_monitor_envs (detect_broken_monitor_envs exState) =
      detect_broken_monitor_envs exState ∧
    countDetections
      (detect_broken_monitor_envs
        (detect_broken_monitor_envs exState)).detections 1 ≤ 1 :=
  ⟨(C2_evaluator_idempotent exState).1,
    (C2_evaluator_idempotent exState).2 1 (by decide)⟩

/-- C3: Duration threshold with inclusive lower bound: for an eligible
monitor-environment with sufficient failing check-ins, an incident strictly
younger than MIN_DURATION produces no detection record, while one at least
MIN_DURATION old produces exactly one. -/
theorem C3_duration_threshold_inclusive (s : DataState)
    (env : MonitorEnvironment) (m : Monitor) (inc : MonitorIncident)
    (henv : env ∈ s.environments)
    (hm : s.monitors.find? (fun x => x.id == env.monitorId) = some m)
    (hfeat : featureEnabledFor s m.organizationId = true)
    (hact : m.status = MonitorStatus.active)
    (hinc : open_incident_for s env.id = some inc)
    (huniq : ∀ j ∈ s.incidents, j.id = inc.id → j = inc)
    (hlen : (recent_checkins s env.id MIN_CHECKINS).length = MIN_CHECKINS)
    (hfail : ∀ c ∈ recent_checkins s env.id MIN_CHECKINS,
      c.status.isFailing = true)
    (hnone : countDetections s.detections inc.id = 0) :
    (s.now - inc.startingTimestamp < MIN_DURATION →
      countDetections (detect_broken_monitor_envs s).detections inc.id = 0) ∧
    (MIN_DURATION ≤ s.now - inc.startingTimestamp →
      countDetections (detect_broken_monitor_envs s).detections inc.id = 1) := by
  constructor
  · intro hlt
    have hnoq : ∀ env2 ∈ s.environments, ∀ inc2,
        qualifies s env2 = some inc2 → inc2.id ≠ inc.id := by
      intro env2 _ inc2 hq hid
      obtain ⟨_, ho, hb⟩ := qualifies_inv s env2 inc2 hq
      obtain ⟨hmem, _, _⟩ := open_incident_for_inv s env2.id inc2 ho
      have heq : inc2 = inc := huniq inc2 hmem hid
      subst heq
      unfold brokenConditions at hb
      simp only [Bool.and_eq_true, decide_eq_true_eq] at hb
      omega
    rw [run_count_eq s inc.id hnoq]
    exact hnone
  · intro hge
    exact run_creates_one s env m inc henv hm hfeat hact hinc hge hlen hfail
      hnone

/-- Witness for C3 at the concrete state whose incident is only 10 days
old. -/
theorem C3_witness :
    countDetections (detect_broken_monitor_envs exStateShort).detections 1 = 0 :=
  (C3_duration_threshold_inclusive exStateShort exEnv exMonitor exIncidentShort
    (by decide) (by decide) (by decide) (by decide) (by decide) (by decide)
    (by decide) (by decide) (by decide)).1 (by decide)

/-- C4: Sample-count threshold: a monitor-environment with fewer than
MIN_CHECKINS check-ins in its history gets no detection record for its
incident, regardless of the incident's age. -/
theorem C4_insufficient_checkins_no_detection (s : DataState)
    (env : MonitorEnvironment) (inc : MonitorIncident)
    (hinc : open_incident_for s env.id = some inc)
    (huniq : ∀ j ∈ s.incidents, j.id = inc.id → j = inc)
    (hfew : (s.checkins.filter (fun c => c.monitorEnvId == env.id)).length <
      MIN_CHECKINS) :
    countDetections (detect_broken_monitor_envs s).detections inc.id =
      countDetections s.detections inc.id := by
  apply run_count_eq
  intro env2 _ inc2 hq hid
  obtain ⟨_, ho, hb⟩ := qualifies_inv s env2 inc2 hq
  obtain ⟨hmem, hme, _⟩ := open_incident_for_inv s env2.id inc2 ho
  have heq : inc2 = inc := huniq inc2 hmem hid
  rw [heq] at hme hb
  obtain ⟨_, hme0, _⟩ := open_incident_for_inv s env.id inc hinc
  have hei : env2.id = env.id := by rw [← hme, hme0]
  unfold brokenConditions at hb
  simp only [Bool.and_eq_true, decide_eq_true_eq, beq_iff_eq] at hb
  have hblen := hb.2.1
  rw [hei] at hblen
  have hfewer : (recent_checkins s env.id MIN_CHECKINS).length < MIN_CHECKINS := by
    unfold recent_checkins
    rw [List.length_take, length_sortByTimeDesc]
    exact lt_of_le_of_lt (min_le_right _ _) hfew
  omega

/-- Witness for C4 at the concrete state with only two check-ins. -/
theorem C4_witness :
    countDetections (detect_broken_monitor_envs exStateFew).detections 1 =
      countDetections exStateFew.detections 1 :=
  C4_insufficient_checkins_no_detection exStateFew exEnv exIncident
    (by decide) (by decide) (by decide)

/-- C5: Recovery interruption: for an eligible monitor-environment whose
incident meets the age threshold, if any of the MIN_CHECKINS most recent
check-ins has a non-failing status, the evaluator creates no detection record
for its incident. -/
theorem C5_recovery_blocks_detection (s : DataState)
    (env : MonitorEnvironment) (inc : MonitorIncident)
    (hinc : open_incident_for s env.id = some inc)
    (huniq : ∀ j ∈ s.incidents, j.id = inc.id → j = inc)
    (hage : MIN_DURATION ≤ s.now - inc.startingTimestamp)
    (hsome : ∃ c ∈ recent_checkins s env.id MIN_CHECKINS,
      c.status.isFailing = false) :
    countDetections (detect_broken_monitor_envs s).detections inc.id =
      countDetections s.detections inc.id := by
  apply run_count_eq
  intro env2 _ inc2 hq hid
  obtain ⟨_, ho, hb⟩ := qualifies_inv s env2 inc2 hq
  obtain ⟨hmem, hme, _⟩ := open_incident_for_inv s env2.id inc2 ho
  have heq : inc2 = inc := huniq inc2 hmem hid
  rw [heq] at hme hb
  obtain ⟨_, hme0, _⟩ := open_incident_for_inv s env.id inc hinc
  have hei : env2.id = env.id := by rw [← hme, hme0]
  unfold brokenConditions at hb
  simp only [Bool.and_eq_true, decide_eq_true_eq, beq_iff_eq,
    List.all_eq_true] at hb
  have hall := hb.2.2
  rw [hei] at hall
  obtain ⟨c, hc, hcf⟩ := hsome
  have := hall c hc
  rw [this] at hcf
  cases hcf

/-- Witness for C5 at the concrete state whose most recent check-in is OK. -/
theorem C5_witness :
    countDetections (detect_broken_monitor_envs exStateRecovered).detections 1 =
      countDetections exStateRecovered.detections 1 :=
  C5_recovery_blocks_detection exStateRecovered exEnv exIncident
    (by decide) (by decide) (by decide) (by decide)

/-- C6: Feature gate off: when the broken-monitor-detection feature is
disabled for the organization of the environment's monitor, the evaluator
creates no detection record for the environment's incident, even on otherwise
fully qualifying data. -/
theorem C6_feature_gate_off_no_detection (s : DataState)
    (env : MonitorEnvironment) (m : Monitor) (inc : MonitorIncident)
    (hm : s.monitors.find? (fun x => x.id == env.monitorId) = some m)
    (hfeat : featureEnabledFor s m.organizationId = false)
    (hinc : open_incident_for s env.id = some inc)
    (huniqInc : ∀ j ∈ s.incidents, j.id = inc.id → j = inc)
    (huniqEnv : ∀ e ∈ s.environments, e.id = env.id → e = env) :
    countDetections (detect_broken_monitor_envs s).detections inc.id =
      countDetections s.detections inc.id := by
  apply run_count_eq
  intro env2 henv2 inc2 hq hid
  obtain ⟨helig, ho, _⟩ := qualifies_inv s env2 inc2 hq
  obtain ⟨hmem, hme, _⟩ := open_incident_for_inv s env2.id inc2 ho
  have heq : inc2 = inc := huniqInc inc2 hmem hid
  rw [heq] at hme
  obtain ⟨_, hme0, _⟩ := open_incident_for_inv s env.id inc hinc
  have hei : env2.id = env.id := by rw [← hme, hme0]
  have henveq : env2 = env := huniqEnv env2 henv2 hei
  subst henveq
  unfold envEligible at helig
  rw [hm] at helig
  simp [hfeat] at helig

/-- Witness for C6 at the concrete state with the feature gate disabled. -/
theorem C6_witness :
    countDetections (detect_broken_monitor_envs exStateNoFeature).detections 1 =
      countDetections exStateNoFeature.detections 1 :=
  C6_feature_gate_off_no_detection exStateNoFeature exEnv exMonitor exIncident
    (by decide) (by decide) (by decide) (by decide) (by decide)

/-- C7: Disabled monitor: when the monitor of the environment is DISABLED or
pending/in deletion, the evaluator creates no detection record for the
environment's incident, even on otherwise fully qualifying data. -/
theorem C7_disabled_monitor_no_detection (s : DataState)
    (env : MonitorEnvironment) (m : Monitor) (inc : MonitorIncident)
    (hm : s.monitors.find? (fun x => x.id == env.monitorId) = some m)
    (hst : m.status = MonitorStatus.disabled ∨
      m.status = MonitorStatus.pendingDeletion ∨
      m.status = MonitorStatus.deletionInProgress)
    (hinc : open_incident_for s env.id = some inc)
    (huniqInc : ∀ j ∈ s.incidents, j.id = inc.id → j = inc)
    (huniqEnv : ∀ e ∈ s.environments, e.id = env.id → e = env) :
    countDetections (detect_broken_monitor_envs s).detections inc.id =
      countDetections s.detections inc.id := by
  apply run_count_eq
  intro env2 henv2 inc2 hq hid
  obtain ⟨helig, ho, _⟩ := qualifies_inv s env2 inc2 hq
  obtain ⟨hmem, hme, _⟩ := open_incident_for_inv s env2.id inc2 ho
  have heq : inc2 = inc := huniqInc inc2 hmem hid
  rw [heq] at hme
  obtain ⟨_, hme0, _⟩ := open_incident_for_inv s env.id inc hinc
  have hei : env2.id = env.id := by rw [← hme, hme0]
  have henveq : env2 = env := huniqEnv env2 henv2 hei
  subst henveq
  unfold envEligible at helig
  rw [hm] at helig
  simp only [Bool.and_eq_true, beq_iff_eq] at helig
  rcases hst with h | h | h <;> rw [h] at helig <;> cases helig.2

/-- Witness for C7 at the concrete state with the disabled monitor. -/
theorem C7_witness :
    countDetections (detect_broken_monitor_envs exStateDisabled).detections 1 =
      countDetections exStateDisabled.detections 1 :=
  C7_disabled_monitor_no_detection exStateDisabled exEnv exMonitorDisabled
    exIncident (by decide) (by decide) (by decide) (by decide) (by decide)

/-- C8: Frame condition: a run of the evaluator writes only
MonitorEnvBrokenDetection records; it never mutates the monitors,
environments, check-ins, incidents, feature gate or clock, and it only
appends to the detection records, never updating or deleting an existing
one. -/
theorem C8_run_writes_detections_only (s : DataState) :
    (detect_broken_monitor_envs s).monitors = s.monitors ∧
    (detect_broken_monitor_envs s).environments = s.environments ∧
    (detect_broken_monitor_envs s).checkins = s.checkins ∧
    (detect_broken_monitor_envs s).incidents = s.incidents ∧
    (detect_broken_monitor_envs s).enabledOrgs = s.enabledOrgs ∧
    (detect_broken_monitor_envs s).now = s.now ∧
    ∃ created, (detect_broken_monitor_envs s).detections =
      s.detections ++ created :=
  ⟨rfl, rfl, rfl, rfl, rfl, rfl,
    foldl_processEnv_append s s.environments s.detections⟩

/-- C9: Per-item error isolation: a caught failure while processing some
monitor-environments does not abort the run; every other monitor-environment
is still processed and, when it qualifies, its incident is referenced by a
detection record at the end of the run. -/
theorem C9_per_item_failures_isolated (s : DataState) (failingIds : List Nat)
    (env : MonitorEnvironment) (inc : MonitorIncident)
    (henv : env ∈ s.environments)
    (hok : failingIds.contains env.id = false)
    (hq : qualifies s env = some inc) :
    hasDetection
      (detect_broken_monitor_envs_isolated s failingIds).detections inc.id =
      true :=
  foldl_processEnvIsolated_covers s failingIds s.environments s.detections env
    inc henv hok hq

/-- Witness for C9: environment 2 fails transiently, environment 1 still gets
its detection record. -/
theorem C9_witness :
    hasDetection
      (detect_broken_monitor_envs_isolated exState [2]).detections 1 = true :=
  C9_per_item_failures_isolated exState [2] exEnv exIncident (by decide)
    (by decide) (by decide)

end Sentry

namespace AppService

/-- C10: get_installation_by_id returns None both when no installation with
the given id exists and when one exists whose status is not INSTALLED; it
returns the serialized installation exactly when the id matches an
installation with status INSTALLED.  The id is the table's primary key, which
the uniqueness hypothesis reflects; under it the lookup is total and never
raises. -/
theorem C10_get_installation_by_id_characterization
    (installs : List SentryAppInstallation) (iid : Nat)
    (huniq : ∀ a ∈ installs, ∀ b ∈ installs, a.id = b.id → a = b) :
    ((∀ i ∈ installs, i.id ≠ iid) →
      get_installation_by_id installs iid = none) ∧
    (∀ i ∈ installs, i.id = iid →
      i.status ≠ SentryAppInstallationStatus.installed →
      get_installation_by_id installs iid = none) ∧
    (∀ i ∈ installs, i.id = iid →
      i.status = SentryAppInstallationStatus.installed →
      get_installation_by_id installs iid =
        some (serialize_sentry_app_installation i)) := by
  refine ⟨?_, ?_, ?_⟩
  · intro h
    unfold get_installation_by_id
    have hnone : installs.find?
        (fun i => i.id == iid &&
          i.status == SentryAppInstallationStatus.installed) = none := by
      refine List.find?_eq_none.mpr fun x hx => ?_
      simp only [Bool.and_eq_true, beq_iff_eq, not_and]
      intro hxid
      exact absurd hxid (h x hx)
    rw [hnone]
  · intro i hi hid hst
    unfold get_installation_by_id
    have hnone : installs.find?
        (fun i => i.id == iid &&
          i.status == SentryAppInstallationStatus.installed) = none := by
      refine List.find?_eq_none.mpr fun x hx => ?_
      simp only [Bool.and_eq_true, beq_iff_eq, not_and]
      intro hxid
      have hxi : x = i := huniq x hx i hi (by rw [hxid, hid])
      rw [hxi]
      exact hst
    rw [hnone]
  · intro i hi hid hst
    unfold get_installation_by_id
    rw [find_matching_unique
      (fun j => j.id == iid &&
        j.status == SentryAppInstallationStatus.installed) installs i hi
      (by simp [hid, hst])
      (fun b hb hpb => by
        simp only [Bool.and_eq_true, beq_iff_eq] at hpb
        exact huniq b hb i hi (by rw [hpb.1, hid]))]

/-- Witness for C10 at a concrete two-row table: an installed row is found
and serialized, a pending row and a missing id both give None. -/
theorem C10_witness :
    get_installation_by_id exInstalls 1 =
      some (serialize_sentry_app_installation ⟨1, 7, 10, .installed⟩) ∧
    get_installation_by_id exInstalls 2 = none ∧
    get_installation_by_id exInstalls 3 = none :=
  ⟨(C10_get_installation_by_id_characterization exInstalls 1
      (by decide)).2.2 ⟨1, 7, 10, .installed⟩ (by decide) rfl rfl,
    (C10_get_installation_by_id_characterization exInstalls 2
      (by decide)).2.1 ⟨2, 7, 11, .pending⟩ (by decide) rfl (by decide),
    (C10_get_installation_by_id_characterization exInstalls 3
      (by decide)).1 (by decide)⟩

end AppService
